import Mathlib

/-!
Shallow embedding of the Multi-Step-Form wizard (a React intake form with
local draft persistence).  Pure logic is translated from the TypeScript
source: the File Validator (`FileUpload.tsx`), the per-step zod validators,
the draft save/load codec (`MultiStepForm`), the step controller
(`handleNext`), and the list add/remove handlers.  Browser/library effects
are made explicit: `localStorage` becomes a `Storage` record, `JSON.parse`
failure becomes a `Stored.malformed` constructor, toasts and `console.error`
become data in the results.
-/

namespace MultiStepForm

/-- A candidate file, as the validator sees it: the browser `File` object's
declared MIME type, byte size and name (`FileUpload.tsx` reads only these). -/
structure File where
  name : String
  size : Nat
  type : String
deriving DecidableEq, Repr

/-- Result of `validateFile` in `FileUpload.tsx`:
`{ valid: boolean; message?: string }`. -/
structure ValidationResult where
  valid : Bool
  message : Option String
deriving DecidableEq, Repr

/-- `validTypes` from `validateFile` in `FileUpload.tsx`. -/
def validTypes : List String :=
  ["application/pdf", "image/jpeg", "image/png", "image/jpg"]

/-- `maxSize = 5 * 1024 * 1024` from `validateFile` in `FileUpload.tsx`. -/
def maxSize : Nat := 5 * 1024 * 1024

/-- `validateFile` from `FileUpload.tsx`: type check first, then size check. -/
def validateFile (file : File) : ValidationResult :=
  if ¬ (file.type ∈ validTypes) then
    { valid := false, message := some "Only PDF, JPG, and PNG files are allowed" }
  else if file.size > maxSize then
    { valid := false, message := some "File size must be less than 5MB" }
  else
    { valid := true, message := none }

/-- `FormFile` from `types/form.ts`: `{ file: File | null; preview: string | null }`. -/
structure FormFile where
  file : Option File
  preview : Option String
deriving DecidableEq, Repr

/-- `QualificationData` from `types/form.ts`. -/
structure QualificationData where
  degreeType : String
  institutionName : String
  graduationYear : String
  document : FormFile
deriving DecidableEq, Repr

/-- `CertificationData` from `types/form.ts`. -/
structure CertificationData where
  name : String
  issuingBody : String
  date : String
  document : FormFile
deriving DecidableEq, Repr

/-- `BarRegistrationData` from `types/form.ts`. -/
structure BarRegistrationData where
  association : String
  licenseNumber : String
  jurisdiction : String
  completionYear : String
  document : FormFile
deriving DecidableEq, Repr

/-- `ProfessionalDetailsData` from `types/form.ts`. -/
structure ProfessionalDetailsData where
  qualifications : QualificationData
  certifications : List CertificationData
  barRegistration : BarRegistrationData
deriving DecidableEq, Repr

/-- `WorkExperiencePosition` from `types/form.ts`. -/
structure WorkExperiencePosition where
  title : String
  company : String
  startDate : String
  endDate : String
  current : Bool
  description : String
deriving DecidableEq, Repr

/-- `ExperienceData` from `types/form.ts`. -/
structure ExperienceData where
  positions : List WorkExperiencePosition
deriving DecidableEq, Repr

/-- `IdentityVerificationData` from `types/form.ts`. -/
structure IdentityVerificationData where
  idType : String
  idNumber : String
  expiryDate : String
  document : FormFile
deriving DecidableEq, Repr

/-- `BasicDetails`: the `basicDetails` sub-record of `FormData` in `types/form.ts`. -/
structure BasicDetails where
  firstName : String
  lastName : String
  email : String
deriving DecidableEq, Repr

/-- `FormData` from `types/form.ts`: the aggregate wizard data. -/
structure FormData where
  basicDetails : BasicDetails
  professionalDetails : ProfessionalDetailsData
  experience : ExperienceData
  identityVerification : IdentityVerificationData
deriving DecidableEq, Repr

/-- `FormSteps` from `types/form.ts`: the closed, ordered step enumeration. -/
inductive FormSteps where
  | basicDetails
  | professionalDetails
  | experience
  | identityVerification
  | verificationStatus
deriving DecidableEq, Repr

/-! ## zod validation issues

Each step component builds a zod schema and, on `parse` failure, formats the
issues into a `Record<string, string>` keyed by `err.path.join('.')`.  An
issue is modelled as its zod path (a list of path components rendered as
strings; array indices render via `toString`) together with its message;
`formatErrors` performs the `path.join('.')` step. -/

/-- A zod issue: the path array and the message. -/
abbrev Issue := List String × String

/-- The `formattedErrors` record built by each component's `validateForm`:
`err.path.join('.')` keyed messages, in issue order. -/
def formatErrors (issues : List Issue) : List (String × String) :=
  issues.map fun e => (String.intercalate "." e.1, e.2)

/-- `z.string().min(1, { message })` semantics on one field: one issue at
`path` when the string is shorter than 1 codepoint. -/
def minOneIssue (path : List String) (msg : String) (s : String) : List Issue :=
  if s.length ≥ 1 then [] else [(path, msg)]

/-- Split a character list at every occurrence of `sep` (the pieces between
separators, in order; `n` separators give `n+1` pieces). -/
def splitOnChar (sep : Char) : List Char → List (List Char)
  | [] => [[]]
  | c :: cs =>
    if c = sep then
      [] :: splitOnChar sep cs
    else
      match splitOnChar sep cs with
      | r :: rs => (c :: r) :: rs
      | [] => [[c]]

/-- Modelled from the spec: zod's `z.string().email()` predicate (library
code, not in the repository) — "email matches a standard email-address
syntax".  Accepts `local@domain` with nonempty local part and a dotted
domain whose labels are all nonempty. -/
def isEmail (s : String) : Bool :=
  match splitOnChar '@' s.data with
  | [localPart, domain] =>
      !localPart.isEmpty &&
      (splitOnChar '.' domain).length ≥ 2 &&
      (splitOnChar '.' domain).all (fun label => !label.isEmpty)
  | _ => false

/-- `basicDetailsSchema` from `BasicDetailsForm`: `firstName`/`lastName`
nonempty, `email` a valid address; issues in field declaration order. -/
def basicDetailsIssues (d : BasicDetails) : List Issue :=
  minOneIssue ["firstName"] "First name is required" d.firstName ++
  minOneIssue ["lastName"] "Last name is required" d.lastName ++
  (if isEmail d.email then [] else [(["email"], "Invalid email address")])

/-- `fileSchema` (identical in `ProfessionalDetailsForm` and
`IdentityVerificationForm`): `file` is a nullable `File` refined to be
non-null with message "Document is required"; `preview` is a nullable
string (never an issue).  `path` locates the `document` field in the
parent object. -/
def fileIssues (path : List String) (f : FormFile) : List Issue :=
  match f.file with
  | some _ => []
  | none => [(path ++ ["file"], "Document is required")]

/-- `qualificationSchema` from `ProfessionalDetailsForm`. -/
def qualificationIssues (path : List String) (q : QualificationData) : List Issue :=
  minOneIssue (path ++ ["degreeType"]) "Degree type is required" q.degreeType ++
  minOneIssue (path ++ ["institutionName"]) "Institution name is required" q.institutionName ++
  minOneIssue (path ++ ["graduationYear"]) "Graduation year is required" q.graduationYear ++
  fileIssues (path ++ ["document"]) q.document

/-- `certificationSchema` from `ProfessionalDetailsForm`. -/
def certificationIssues (path : List String) (c : CertificationData) : List Issue :=
  minOneIssue (path ++ ["name"]) "Certification name is required" c.name ++
  minOneIssue (path ++ ["issuingBody"]) "Issuing body is required" c.issuingBody ++
  minOneIssue (path ++ ["date"]) "Date is required" c.date ++
  fileIssues (path ++ ["document"]) c.document

/-- `barRegistrationSchema` from `ProfessionalDetailsForm`. -/
def barRegistrationIssues (path : List String) (b : BarRegistrationData) : List Issue :=
  minOneIssue (path ++ ["association"]) "Bar association is required" b.association ++
  minOneIssue (path ++ ["licenseNumber"]) "License number is required" b.licenseNumber ++
  minOneIssue (path ++ ["jurisdiction"]) "Jurisdiction is required" b.jurisdiction ++
  minOneIssue (path ++ ["completionYear"]) "Completion year is required" b.completionYear ++
  fileIssues (path ++ ["document"]) b.document

/-- Per-element issues of a zod array: element `i` is validated with `i`
(rendered by `toString`) appended to the path. -/
def arrayElementIssues {α : Type}
    (elemIssues : List String → α → List Issue)
    (path : List String) (xs : List α) : List Issue :=
  (xs.enum.map fun e => elemIssues (path ++ [toString e.1]) e.2).flatten

/-- `professionalDetailsSchema` from `ProfessionalDetailsForm`:
`qualifications`, then `certifications` (a `.min(1)` array with message
"At least one certification is required"), then `barRegistration`. -/
def professionalDetailsIssues (d : ProfessionalDetailsData) : List Issue :=
  qualificationIssues ["qualifications"] d.qualifications ++
  (if d.certifications.length ≥ 1 then [] else
    [(["certifications"], "At least one certification is required")]) ++
  arrayElementIssues certificationIssues ["certifications"] d.certifications ++
  barRegistrationIssues ["barRegistration"] d.barRegistration

/-- `workExperienceSchema` from `ExperienceForm`: `title`, `company`,
`startDate`, `description` nonempty; `endDate` optional; `current` a plain
boolean (no cross-field rule). -/
def workExperienceIssues (path : List String) (p : WorkExperiencePosition) : List Issue :=
  minOneIssue (path ++ ["title"]) "Job title is required" p.title ++
  minOneIssue (path ++ ["company"]) "Company name is required" p.company ++
  minOneIssue (path ++ ["startDate"]) "Start date is required" p.startDate ++
  minOneIssue (path ++ ["description"]) "Job description is required" p.description

/-- `experienceSchema` from `ExperienceForm`:
`positions: z.array(workExperienceSchema).min(1)` (zod default message). -/
def experienceIssues (d : ExperienceData) : List Issue :=
  (if d.positions.length ≥ 1 then [] else
    [(["positions"], "Array must contain at least 1 element(s)")]) ++
  arrayElementIssues workExperienceIssues ["positions"] d.positions

/-- `identityVerificationSchema` from `IdentityVerificationForm`. -/
def identityVerificationIssues (d : IdentityVerificationData) : List Issue :=
  minOneIssue ["idType"] "ID type is required" d.idType ++
  minOneIssue ["idNumber"] "ID number is required" d.idNumber ++
  minOneIssue ["expiryDate"] "Expiry date is required" d.expiryDate ++
  fileIssues ["document"] d.document

/-! ## Draft codec (`handleSaveDraft` + the load `useEffect` in `MultiStepForm`)

`localStorage` holds two keys, `STORAGE_KEY` (the JSON of `formData` with
every `file` nulled by the stringify replacer) and `FILES_STORAGE_KEY` (the
`fileRefs` previews).  The JSON string round trip on the `File`-free record
is modelled as the identity on that record; a stored value whose
`JSON.parse` throws is the `Stored.malformed` constructor. -/

/-- A stored value under one key: either the parsed value, or content on
which `JSON.parse` throws. -/
inductive Stored (α : Type) where
  | ok (a : α)
  | malformed
deriving DecidableEq, Repr

/-- The `fileRefs` record saved under `FILES_STORAGE_KEY`: each field is the
corresponding slot's `preview` (`{preview: string | null}` per slot). -/
structure FileRefs where
  qualifications : Option String
  barRegistration : Option String
  certifications : List (Option String)
  identityVerification : Option String
deriving DecidableEq, Repr

/-- The two `localStorage` keys used by `MultiStepForm`:
`STORAGE_KEY = 'lexi_ai_form_data'` and `FILES_STORAGE_KEY = 'lexi_ai_form_files'`. -/
structure Storage where
  dataKey : Option (Stored FormData)
  filesKey : Option (Stored FileRefs)
deriving DecidableEq, Repr

/-- A call to the `toast` notification collaborator. -/
structure ToastMsg where
  title : String
  description : Option String
  variant : Option String
deriving DecidableEq, Repr

/-- The `JSON.stringify` replacer in `handleSaveDraft` on one slot: a `file`
value that is a `File` instance becomes `null`; everything else is kept. -/
def stripFile (f : FormFile) : FormFile :=
  { f with file := none }

/-- The replacer applied across the whole `formData`: every document slot's
`file` is nulled, all other values are kept verbatim. -/
def stripFiles (fd : FormData) : FormData :=
  { fd with
    professionalDetails :=
      { fd.professionalDetails with
        qualifications :=
          { fd.professionalDetails.qualifications with
            document := stripFile fd.professionalDetails.qualifications.document }
        certifications :=
          fd.professionalDetails.certifications.map
            fun c => { c with document := stripFile c.document }
        barRegistration :=
          { fd.professionalDetails.barRegistration with
            document := stripFile fd.professionalDetails.barRegistration.document } }
    identityVerification :=
      { fd.identityVerification with
        document := stripFile fd.identityVerification.document } }

/-- The `fileRefs` value built in `handleSaveDraft`. -/
def extractFileRefs (fd : FormData) : FileRefs :=
  { qualifications := fd.professionalDetails.qualifications.document.preview
    barRegistration := fd.professionalDetails.barRegistration.document.preview
    certifications := fd.professionalDetails.certifications.map fun c => c.document.preview
    identityVerification := fd.identityVerification.document.preview }

/-- `handleSaveDraft` from `MultiStepForm`: writes both keys. -/
def handleSaveDraft (fd : FormData) : Storage :=
  { dataKey := some (.ok (stripFiles fd))
    filesKey := some (.ok (extractFileRefs fd)) }

/-- JavaScript truthiness of a `preview` value (`string | null`): truthy
iff present and nonempty. -/
def truthyPreview : Option String → Bool
  | none => false
  | some p => p ≠ ""

/-- The `fileRefs.certifications.forEach` loop of the load effect: the
preview at index `i` is written onto certification `i` when that index
still exists and the preview is truthy. -/
def overlayCertifications :
    List (Option String) → List CertificationData → List CertificationData
  | _, [] => []
  | [], cs => cs
  | r :: rs, c :: cs =>
    (match r with
     | some p =>
       if p ≠ "" then { c with document := { c.document with preview := some p } } else c
     | none => c) :: overlayCertifications rs cs

/-- The preview-restore phase of the load `useEffect`: overlays the saved
previews onto the parsed data, guarding each write by truthiness. -/
def overlayFileRefs (refs : FileRefs) (fd : FormData) : FormData :=
  let fd1 := match refs.qualifications with
    | some p =>
      if p ≠ "" then
        { fd with professionalDetails.qualifications.document.preview := some p }
      else fd
    | none => fd
  let fd2 := match refs.barRegistration with
    | some p =>
      if p ≠ "" then
        { fd1 with professionalDetails.barRegistration.document.preview := some p }
      else fd1
    | none => fd1
  let fd3 :=
    if refs.certifications.length ≠ 0 then
      { fd2 with professionalDetails.certifications :=
          overlayCertifications refs.certifications fd2.professionalDetails.certifications }
    else fd2
  match refs.identityVerification with
  | some p =>
    if p ≠ "" then
      { fd3 with identityVerification.document.preview := some p }
    else fd3
  | none => fd3

/-- Outcome of the load `useEffect`: the resulting `formData`, whether the
catch block ran `console.error`, and the toasts shown. -/
structure LoadResult where
  formData : FormData
  loggedError : Bool
  toasts : List ToastMsg
deriving DecidableEq, Repr

/-- The "Draft loaded" toast of the load effect. -/
def loadedToast : ToastMsg :=
  ⟨"Draft loaded", some "Your previously saved form data has been restored", none⟩

/-- The load `useEffect` of `MultiStepForm`: absent draft keeps the initial
state; a parse throw is caught (after any `setFormData` already executed)
and logged; otherwise previews are overlaid and the loaded toast shown. -/
def loadDraft (init : FormData) (st : Storage) : LoadResult :=
  match st.dataKey with
  | none => { formData := init, loggedError := false, toasts := [] }
  | some .malformed => { formData := init, loggedError := true, toasts := [] }
  | some (.ok parsed) =>
    match st.filesKey with
    | none => { formData := parsed, loggedError := false, toasts := [loadedToast] }
    | some .malformed => { formData := parsed, loggedError := true, toasts := [] }
    | some (.ok refs) =>
      { formData := overlayFileRefs refs parsed
        loggedError := false
        toasts := [loadedToast] }

/-! ## Step controller -/

/-- The `animationDirection` state of `MultiStepForm`. -/
inductive Direction where
  | forward
  | backward
deriving DecidableEq, Repr

/-- The `steps` array of `MultiStepForm` (ids only; titles are markup). -/
def steps : List FormSteps :=
  [.basicDetails, .professionalDetails, .experience, .identityVerification,
   .verificationStatus]

/-- The controller-visible state: `formData`, `currentStep` and
`animationDirection` from `MultiStepForm`, plus the active step component's
`errors` record. -/
structure WizardUI where
  formData : FormData
  currentStep : FormSteps
  animationDirection : Direction
  stepErrors : List (String × String)
deriving DecidableEq, Repr

/-- `handleNext` from `MultiStepForm`. -/
def handleNext (st : WizardUI) : WizardUI :=
  let currentIndex := steps.findIdx fun s => s = st.currentStep
  if currentIndex < steps.length - 1 then
    { st with animationDirection := .forward
              currentStep := steps.getD (currentIndex + 1) st.currentStep }
  else st

/-- `handlePrevious` from `MultiStepForm`. -/
def handlePrevious (st : WizardUI) : WizardUI :=
  let currentIndex := steps.findIdx fun s => s = st.currentStep
  if currentIndex > 0 then
    { st with animationDirection := .backward
              currentStep := steps.getD (currentIndex - 1) st.currentStep }
  else st

/-- The active step's validator (each component's schema `parse` on its
sub-record); the terminal `verificationStatus` page has no validator. -/
def validateStep : FormSteps → FormData → List Issue
  | .basicDetails, fd => basicDetailsIssues fd.basicDetails
  | .professionalDetails, fd => professionalDetailsIssues fd.professionalDetails
  | .experience, fd => experienceIssues fd.experience
  | .identityVerification, fd => identityVerificationIssues fd.identityVerification
  | .verificationStatus, _ => []

/-- Each step component's `handleSubmit`: `validateForm` (sets or clears the
`errors` record) and `onNext` only on success. -/
def handleSubmit (st : WizardUI) : WizardUI :=
  let issues := validateStep st.currentStep st.formData
  if issues.isEmpty then
    handleNext { st with stepErrors := [] }
  else
    { st with stepErrors := formatErrors issues }

/-- The immediately next step in the fixed sequence order, written out from
the spec's step enumeration (terminal step maps to itself). -/
def nextStep : FormSteps → FormSteps
  | .basicDetails => .professionalDetails
  | .professionalDetails => .experience
  | .experience => .identityVerification
  | .identityVerification => .verificationStatus
  | .verificationStatus => .verificationStatus

/-! ## File selection handlers (`FileUpload.tsx`) -/

/-- Modelled from the spec: `URL.createObjectURL` (browser API, not in the
repository) — an ephemeral object URL derived from the file at the moment
of selection. -/
def createObjectURL (f : File) : String :=
  "blob:" ++ f.name

/-- The "Invalid file" destructive toast shown on rejection. -/
def invalidFileToast (v : ValidationResult) : ToastMsg :=
  ⟨"Invalid file", v.message, some "destructive"⟩

/-- `handleFileChange` from `FileUpload.tsx`, on the slot's current value
and the input's file list: a failing candidate only toasts (early return,
no `onChange`); a passing one replaces the slot wholesale. -/
def handleFileChange (slot : FormFile) (files : List File) : FormFile × List ToastMsg :=
  match files with
  | [] => (slot, [])
  | f :: _ =>
    let validation := validateFile f
    if validation.valid then
      ({ file := some f, preview := some (createObjectURL f) }, [])
    else
      (slot, [invalidFileToast validation])

/-- `handleDrop` from `FileUpload.tsx`: same gate over the drag-and-drop
file list. -/
def handleDrop (slot : FormFile) (files : List File) : FormFile × List ToastMsg :=
  match files with
  | [] => (slot, [])
  | f :: _ =>
    let validation := validateFile f
    if validation.valid then
      ({ file := some f, preview := some (createObjectURL f) }, [])
    else
      (slot, [invalidFileToast validation])

/-! ## List add/remove handlers and initial state -/

/-- `initialQualification` from `MultiStepForm`. -/
def initialQualification : QualificationData :=
  ⟨"", "", "", ⟨none, none⟩⟩

/-- `initialCertification` from `MultiStepForm`. -/
def initialCertification : CertificationData :=
  ⟨"", "", "", ⟨none, none⟩⟩

/-- `initialBarRegistration` from `MultiStepForm`. -/
def initialBarRegistration : BarRegistrationData :=
  ⟨"", "", "", "", ⟨none, none⟩⟩

/-- `initialFormData` from `MultiStepForm`: one empty certification and one
empty position. -/
def initialFormData : FormData :=
  { basicDetails := ⟨"", "", ""⟩
    professionalDetails :=
      { qualifications := initialQualification
        certifications := [initialCertification]
        barRegistration := initialBarRegistration }
    experience :=
      { positions := [⟨"", "", "", "", false, ""⟩] }
    identityVerification :=
      { idType := "", idNumber := "", expiryDate := "", document := ⟨none, none⟩ } }

/-- The `newCertification` literal in `handleAddCertification`. -/
def newCertification : CertificationData :=
  ⟨"", "", "", ⟨none, none⟩⟩

/-- `handleAddCertification` from `ProfessionalDetailsForm`. -/
def handleAddCertification (d : ProfessionalDetailsData) : ProfessionalDetailsData :=
  { d with certifications := d.certifications ++ [newCertification] }

/-- `handleRemoveCertification` from `ProfessionalDetailsForm`: refuses when
only one certification remains; otherwise `splice(index, 1)`. -/
def handleRemoveCertification (d : ProfessionalDetailsData) (index : Nat) :
    ProfessionalDetailsData :=
  if d.certifications.length ≤ 1 then d
  else { d with certifications := d.certifications.eraseIdx index }

/-- `emptyPosition` from `ExperienceForm`. -/
def emptyPosition : WorkExperiencePosition :=
  ⟨"", "", "", "", false, ""⟩

/-- `handleAddPosition` from `ExperienceForm`. -/
def handleAddPosition (d : ExperienceData) : ExperienceData :=
  { d with positions := d.positions ++ [emptyPosition] }

/-- `handleRemovePosition` from `ExperienceForm`: `splice(index, 1)` only
when more than one position remains. -/
def handleRemovePosition (d : ExperienceData) (index : Nat) : ExperienceData :=
  if d.positions.length > 1 then
    { d with positions := d.positions.eraseIdx index }
  else d

/-- A UI operation on the certification list. -/
inductive CertOp where
  | add
  | remove (index : Nat)
deriving DecidableEq, Repr

/-- Dispatch of a certification-list operation to its handler. -/
def applyCertOp (d : ProfessionalDetailsData) : CertOp → ProfessionalDetailsData
  | .add => handleAddCertification d
  | .remove i => handleRemoveCertification d i

/-- A UI operation on the position list. -/
inductive PositionOp where
  | add
  | remove (index : Nat)
deriving DecidableEq, Repr

/-- Dispatch of a position-list operation to its handler. -/
def applyPositionOp (d : ExperienceData) : PositionOp → ExperienceData
  | .add => handleAddPosition d
  | .remove i => handleRemovePosition d i

/-- A document slot with neither a file handle nor a preview set. -/
def slotUnpopulated (f : FormFile) : Bool :=
  f.file.isNone && f.preview.isNone

/-- No document slot of the wizard state has a file or a preview set. -/
def noFileSlots (fd : FormData) : Bool :=
  slotUnpopulated fd.professionalDetails.qualifications.document &&
  fd.professionalDetails.certifications.all (fun c => slotUnpopulated c.document) &&
  slotUnpopulated fd.professionalDetails.barRegistration.document &&
  slotUnpopulated fd.identityVerification.document

/-! ## Theorems -/

/-- A nonempty string has length at least 1 (`z.string().min(1)` accepts it
exactly when the string is nonempty). -/
lemma one_le_length_of_ne_empty (s : String) (h : s ≠ "") : 1 ≤ s.length := by
  cases s with
  | mk data =>
    cases data with
    | nil => exact absurd rfl h
    | cons c cs => simp [String.length]

/-- C2: a candidate file whose declared MIME type is outside the accepted
set is rejected with the type message, regardless of its size. -/
theorem validateFile_rejects_foreign_type (f : File) (h : f.type ∉ validTypes) :
    validateFile f =
      { valid := false, message := some "Only PDF, JPG, and PNG files are allowed" } := by
  simp [validateFile, h]

/-- Witness for C2: a 6 MiB `text/plain` file (both rules violated; the
type message wins). -/
theorem validateFile_rejects_foreign_type_witness :
    "text/plain" ∉ validTypes ∧
    validateFile ⟨"notes.txt", 6 * 1024 * 1024, "text/plain"⟩ =
      { valid := false, message := some "Only PDF, JPG, and PNG files are allowed" } :=
  ⟨by decide, validateFile_rejects_foreign_type
    ⟨"notes.txt", 6 * 1024 * 1024, "text/plain"⟩ (by decide)⟩

/-- C3: for an accepted MIME type, size strictly above 5×1024×1024 bytes is
rejected with the size message, and size at most 5×1024×1024 is accepted. -/
theorem validateFile_size_rule (f : File) (h : f.type ∈ validTypes) :
    (f.size > 5 * 1024 * 1024 →
      validateFile f = { valid := false, message := some "File size must be less than 5MB" }) ∧
    (f.size ≤ 5 * 1024 * 1024 →
      validateFile f = { valid := true, message := none }) := by
  constructor
  · intro hs
    simp [validateFile, h, maxSize, hs]
  · intro hs
    simp [validateFile, h, maxSize]
    omega

/-- Witness for C3: a PDF exactly at the limit is accepted; one byte above
is rejected with the size message. -/
theorem validateFile_size_rule_witness :
    "application/pdf" ∈ validTypes ∧
    validateFile ⟨"cv.pdf", 5 * 1024 * 1024, "application/pdf"⟩ =
      { valid := true, message := none } ∧
    validateFile ⟨"cv.pdf", 5 * 1024 * 1024 + 1, "application/pdf"⟩ =
      { valid := false, message := some "File size must be less than 5MB" } :=
  ⟨by decide,
   (validateFile_size_rule ⟨"cv.pdf", 5 * 1024 * 1024, "application/pdf"⟩ (by decide)).2
     (by decide),
   (validateFile_size_rule ⟨"cv.pdf", 5 * 1024 * 1024 + 1, "application/pdf"⟩ (by decide)).1
     (by decide)⟩

/-- C7: when the stored draft data is malformed (`JSON.parse` throws), the
load effect catches, logs the diagnostic, and leaves the wizard at the
default state — whatever the file-references key holds. -/
theorem malformed_draft_falls_back (init : FormData) (filesKey : Option (Stored FileRefs)) :
    loadDraft init { dataKey := some .malformed, filesKey := filesKey } =
      { formData := init, loggedError := true, toasts := [] } :=
  rfl

/-- C8: on `{firstName: "", lastName: "Doe", email: "a@b.com"}` the basic
details validator produces exactly the single-entry error map
`{"firstName": "First name is required"}`. -/
theorem basicDetails_firstName_only :
    formatErrors (basicDetailsIssues ⟨"", "Doe", "a@b.com"⟩) =
      [("firstName", "First name is required")] := by
  decide

/-- C9: the experience validator rejects an empty position list with the
minimum-one failure, and accepts a single fully filled position even when
`current` is set together with a nonempty `endDate`. -/
theorem experience_min_one_and_current_flag (p : WorkExperiencePosition)
    (_hc : p.current = true) (_he : p.endDate ≠ "") (ht : p.title ≠ "")
    (hcomp : p.company ≠ "") (hs : p.startDate ≠ "") (hd : p.description ≠ "") :
    experienceIssues ⟨[]⟩ = [(["positions"], "Array must contain at least 1 element(s)")] ∧
    experienceIssues ⟨[p]⟩ = [] := by
  refine ⟨by decide, ?_⟩
  simp [experienceIssues, arrayElementIssues, workExperienceIssues, minOneIssue,
    one_le_length_of_ne_empty _ ht, one_le_length_of_ne_empty _ hcomp,
    one_le_length_of_ne_empty _ hs, one_le_length_of_ne_empty _ hd]

/-- Witness for C9: a current position from 2020 with a stray end date. -/
theorem experience_min_one_and_current_flag_witness :
    let p : WorkExperiencePosition :=
      ⟨"Counsel", "Smith LLP", "2020-01-01", "2021-06-01", true, "Advised clients"⟩
    experienceIssues ⟨[]⟩ = [(["positions"], "Array must contain at least 1 element(s)")] ∧
    experienceIssues ⟨[p]⟩ = [] :=
  experience_min_one_and_current_flag
    ⟨"Counsel", "Smith LLP", "2020-01-01", "2021-06-01", true, "Advised clients"⟩
    (by decide) (by decide) (by decide) (by decide) (by decide) (by decide)

/-- C5: the document requirement is satisfied exactly by a live file handle
(`fileIssues` is empty iff `file` is non-null, independent of `preview`);
consequently, a restored preview-only slot makes the professional-details
validator and the identity-verification validator emit the
"Document is required" failure for that slot. -/
theorem document_requires_live_handle :
    (∀ slot : FormFile, fileIssues ["document"] slot = [] ↔ slot.file.isSome = true) ∧
    (∀ (d : ProfessionalDetailsData) (p : String),
      d.qualifications.document.file = none →
      d.qualifications.document.preview = some p →
      (["qualifications", "document", "file"], "Document is required") ∈
        professionalDetailsIssues d) ∧
    (∀ (d : IdentityVerificationData) (p : String),
      d.document.file = none →
      d.document.preview = some p →
      (["document", "file"], "Document is required") ∈ identityVerificationIssues d) := by
  refine ⟨?_, ?_, ?_⟩
  · intro slot
    cases hf : slot.file <;> simp [fileIssues, hf]
  · intro d p hfile _
    simp [professionalDetailsIssues, qualificationIssues, fileIssues, hfile]
  · intro d p hfile _
    simp [identityVerificationIssues, fileIssues, hfile]

/-- Witness for C5: a qualification slot and an identity slot restored with
only a preview fail the document requirement; a live handle satisfies it. -/
theorem document_requires_live_handle_witness :
    (fileIssues ["document"] ⟨some ⟨"cv.pdf", 100, "application/pdf"⟩, some "blob:cv"⟩ = [] ↔
      (some (⟨"cv.pdf", 100, "application/pdf"⟩ : File)).isSome = true) ∧
    (["qualifications", "document", "file"], "Document is required") ∈
      professionalDetailsIssues
        { initialFormData.professionalDetails with
          qualifications := ⟨"LLB", "Oxford", "2015", ⟨none, some "blob:degree"⟩⟩ } ∧
    (["document", "file"], "Document is required") ∈
      identityVerificationIssues ⟨"Passport", "X123", "2030-01-01", ⟨none, some "blob:id"⟩⟩ :=
  ⟨document_requires_live_handle.1 ⟨some ⟨"cv.pdf", 100, "application/pdf"⟩, some "blob:cv"⟩,
   document_requires_live_handle.2.1
     { initialFormData.professionalDetails with
       qualifications := ⟨"LLB", "Oxford", "2015", ⟨none, some "blob:degree"⟩⟩ }
     "blob:degree" rfl rfl,
   document_requires_live_handle.2.2
     ⟨"Passport", "X123", "2030-01-01", ⟨none, some "blob:id"⟩⟩ "blob:id" rfl rfl⟩

/-- C6: a candidate file that fails validation is never written into the
slot — both the change handler and the drop handler leave the prior slot
value untouched and report the rejection only through the toast
collaborator. -/
theorem rejected_file_never_enters_slot (slot : FormFile) (f : File) (rest : List File)
    (h : (validateFile f).valid = false) :
    handleFileChange slot (f :: rest) = (slot, [invalidFileToast (validateFile f)]) ∧
    handleDrop slot (f :: rest) = (slot, [invalidFileToast (validateFile f)]) := by
  constructor <;> simp [handleFileChange, handleDrop, h]

/-- Witness for C6: a slot holding a previously accepted PDF survives the
rejection of an oversized candidate. -/
theorem rejected_file_never_enters_slot_witness :
    (validateFile ⟨"big.pdf", 6 * 1024 * 1024, "application/pdf"⟩).valid = false ∧
    handleFileChange ⟨some ⟨"ok.pdf", 100, "application/pdf"⟩, some "blob:ok"⟩
        [⟨"big.pdf", 6 * 1024 * 1024, "application/pdf"⟩] =
      (⟨some ⟨"ok.pdf", 100, "application/pdf"⟩, some "blob:ok"⟩,
       [invalidFileToast (validateFile ⟨"big.pdf", 6 * 1024 * 1024, "application/pdf"⟩)]) :=
  ⟨by decide,
   (rejected_file_never_enters_slot ⟨some ⟨"ok.pdf", 100, "application/pdf"⟩, some "blob:ok"⟩
     ⟨"big.pdf", 6 * 1024 * 1024, "application/pdf"⟩ [] (by decide)).1⟩

/-- C4: on every non-terminal step, submitting runs the active step's
validator; on failure the controller stays put and the step's error map is
set; on success it moves to the immediately next step of the fixed sequence
with the direction hint set to forward (and the error map cleared). -/
theorem handleSubmit_gates_on_validator (st : WizardUI)
    (hterm : st.currentStep ≠ .verificationStatus) :
    (validateStep st.currentStep st.formData ≠ [] →
      (handleSubmit st).currentStep = st.currentStep ∧
      (handleSubmit st).stepErrors = formatErrors (validateStep st.currentStep st.formData)) ∧
    (validateStep st.currentStep st.formData = [] →
      (handleSubmit st).currentStep = nextStep st.currentStep ∧
      (handleSubmit st).animationDirection = .forward ∧
      (handleSubmit st).stepErrors = []) := by
  constructor
  · intro hfail
    have hempty : (validateStep st.currentStep st.formData).isEmpty = false := by
      simpa [List.isEmpty_iff] using hfail
    simp [handleSubmit, hempty]
  · intro hok
    have hempty : (validateStep st.currentStep st.formData).isEmpty = true := by
      simp [List.isEmpty_iff, hok]
    obtain ⟨fd, step, dir, errs⟩ := st
    cases step
    case verificationStatus => exact absurd rfl hterm
    all_goals
      simp only [handleSubmit, hempty, if_true]
    all_goals
      exact ⟨rfl, rfl, rfl⟩

/-- Witness for C4: from the first step, the empty draft fails validation
and stays; a filled basic-details record advances to professional details
with the forward hint. -/
theorem handleSubmit_gates_on_validator_witness :
    validateStep .basicDetails initialFormData ≠ [] ∧
    (handleSubmit ⟨initialFormData, .basicDetails, .backward, []⟩).currentStep =
      FormSteps.basicDetails ∧
    validateStep .basicDetails
      { initialFormData with basicDetails := ⟨"Jane", "Doe", "jane@example.com"⟩ } = [] ∧
    (handleSubmit ⟨{ initialFormData with basicDetails := ⟨"Jane", "Doe", "jane@example.com"⟩ },
        .basicDetails, .backward, []⟩).currentStep = FormSteps.professionalDetails ∧
    (handleSubmit ⟨{ initialFormData with basicDetails := ⟨"Jane", "Doe", "jane@example.com"⟩ },
        .basicDetails, .backward, []⟩).animationDirection = Direction.forward :=
  ⟨by decide,
   ((handleSubmit_gates_on_validator ⟨initialFormData, .basicDetails, .backward, []⟩
       (by decide)).1 (by decide)).1,
   by decide,
   ((handleSubmit_gates_on_validator
       ⟨{ initialFormData with basicDetails := ⟨"Jane", "Doe", "jane@example.com"⟩ },
        .basicDetails, .backward, []⟩ (by decide)).2 (by decide)).1,
   ((handleSubmit_gates_on_validator
       ⟨{ initialFormData with basicDetails := ⟨"Jane", "Doe", "jane@example.com"⟩ },
        .basicDetails, .backward, []⟩ (by decide)).2 (by decide)).2.1⟩

/-- C10: the certification list and the position list start with one entry,
every add/remove handler preserves nonemptiness (remove refuses on a
singleton), so length ≥ 1 holds after any sequence of list operations from
the initial state. -/
theorem list_length_ge_one_invariant :
    1 ≤ initialFormData.professionalDetails.certifications.length ∧
    1 ≤ initialFormData.experience.positions.length ∧
    (∀ (d : ProfessionalDetailsData) (op : CertOp),
      1 ≤ d.certifications.length → 1 ≤ (applyCertOp d op).certifications.length) ∧
    (∀ (d : ExperienceData) (op : PositionOp),
      1 ≤ d.positions.length → 1 ≤ (applyPositionOp d op).positions.length) ∧
    (∀ ops : List CertOp,
      1 ≤ (ops.foldl applyCertOp initialFormData.professionalDetails).certifications.length) ∧
    (∀ ops : List PositionOp,
      1 ≤ (ops.foldl applyPositionOp initialFormData.experience).positions.length) := by
  have hcert : ∀ (d : ProfessionalDetailsData) (op : CertOp),
      1 ≤ d.certifications.length → 1 ≤ (applyCertOp d op).certifications.length := by
    intro d op h
    cases op with
    | add => simp [applyCertOp, handleAddCertification]
    | remove i =>
      by_cases hle : d.certifications.length ≤ 1
      · simpa [applyCertOp, handleRemoveCertification, hle] using h
      · simp [applyCertOp, handleRemoveCertification, hle, List.length_eraseIdx]
        split <;> omega
  have hpos : ∀ (d : ExperienceData) (op : PositionOp),
      1 ≤ d.positions.length → 1 ≤ (applyPositionOp d op).positions.length := by
    intro d op h
    cases op with
    | add => simp [applyPositionOp, handleAddPosition]
    | remove i =>
      by_cases hgt : d.positions.length > 1
      · simp [applyPositionOp, handleRemovePosition, hgt, List.length_eraseIdx]
        split <;> omega
      · simpa [applyPositionOp, handleRemovePosition, hgt] using h
  have hfoldc : ∀ (ops : List CertOp) (d : ProfessionalDetailsData),
      1 ≤ d.certifications.length → 1 ≤ (ops.foldl applyCertOp d).certifications.length := by
    intro ops
    induction ops with
    | nil => intro d h; simpa using h
    | cons op ops ih => intro d h; exact ih _ (hcert d op h)
  have hfoldp : ∀ (ops : List PositionOp) (d : ExperienceData),
      1 ≤ d.positions.length → 1 ≤ (ops.foldl applyPositionOp d).positions.length := by
    intro ops
    induction ops with
    | nil => intro d h; simpa using h
    | cons op ops ih => intro d h; exact ih _ (hpos d op h)
  exact ⟨by decide, by decide, hcert, hpos,
    fun ops => hfoldc ops _ (by decide), fun ops => hfoldp ops _ (by decide)⟩

/-- Witness for C10: removing from the singleton initial lists is refused,
so one entry remains. -/
theorem list_length_ge_one_invariant_witness :
    1 ≤ (applyCertOp initialFormData.professionalDetails (.remove 0)).certifications.length ∧
    1 ≤ (applyPositionOp initialFormData.experience (.remove 0)).positions.length :=
  ⟨list_length_ge_one_invariant.2.2.1 initialFormData.professionalDetails (.remove 0) (by decide),
   list_length_ge_one_invariant.2.2.2.1 initialFormData.experience (.remove 0) (by decide)⟩

/-- Overlaying a certification list with its own previews changes nothing:
a truthy preview is rewritten to the value it already has. -/
lemma overlayCertifications_self (cs : List CertificationData) :
    overlayCertifications (cs.map fun c => c.document.preview) cs = cs := by
  induction cs with
  | nil => rfl
  | cons c cs ih =>
    obtain ⟨n, ib, dt, ⟨cf, cp⟩⟩ := c
    cases cp with
    | none => simpa [overlayCertifications] using ih
    | some p =>
      by_cases hp : p = "" <;> simp [overlayCertifications, hp, ih]

/-- Overlaying any wizard data with its own extracted previews is the
identity. -/
lemma overlay_extract_self (g : FormData) :
    overlayFileRefs (extractFileRefs g) g = g := by
  obtain ⟨bd, ⟨⟨dt, inst, gy, ⟨qf, qp⟩⟩, certs, ⟨assoc, lic, jur, cy, ⟨bf, bp⟩⟩⟩, ex,
    ⟨it, idn, ed, ⟨ivf, ivp⟩⟩⟩ := g
  rcases qp with _ | p <;> rcases bp with _ | pb <;> rcases ivp with _ | pv <;>
    simp [overlayFileRefs, extractFileRefs, overlayCertifications_self]

/-- Stripping file handles from certifications whose handles are already
absent changes nothing. -/
lemma strip_certifications_id (cs : List CertificationData)
    (h : ∀ c ∈ cs, c.document.file = none) :
    (cs.map fun c => { c with document := stripFile c.document }) = cs := by
  induction cs with
  | nil => rfl
  | cons c cs ih =>
    obtain ⟨n, ib, dt, ⟨cf, cp⟩⟩ := c
    have h1 : cf = none := by simpa using h _ (List.mem_cons_self _ _)
    subst h1
    simp [stripFile]
    exact ih fun c hc => h c (List.mem_cons_of_mem _ hc)

/-- On a state with no populated file slot, the stringify replacer is the
identity. -/
lemma stripFiles_eq_self (fd : FormData) (h : noFileSlots fd = true) :
    stripFiles fd = fd := by
  obtain ⟨bd, ⟨⟨dt, inst, gy, ⟨qf, qp⟩⟩, certs, ⟨assoc, lic, jur, cy, ⟨bf, bp⟩⟩⟩, ex,
    ⟨it, idn, ed, ⟨ivf, ivp⟩⟩⟩ := fd
  simp only [noFileSlots, slotUnpopulated, Bool.and_eq_true, Option.isNone_iff_eq_none,
    List.all_eq_true] at h
  obtain ⟨⟨⟨⟨hqf, hqp⟩, hcerts⟩, hbf, hbp⟩, hivf, hivp⟩ := h
  subst hqf; subst hbf; subst hivf
  simp [stripFiles, stripFile]
  exact strip_certifications_id certs fun c hc => (hcerts c hc).1

/-- C1: `save` then `load` round-trips every non-file field exactly — the
loaded state is the saved state with every file handle nulled; in
particular, when no file slot holds a file or a preview, the loaded state
is deep-equal to the original. -/
theorem save_load_roundtrip (fd : FormData) :
    (loadDraft initialFormData (handleSaveDraft fd)).formData = stripFiles fd ∧
    (noFileSlots fd = true →
      (loadDraft initialFormData (handleSaveDraft fd)).formData = fd) := by
  have hunfold : (loadDraft initialFormData (handleSaveDraft fd)).formData =
      overlayFileRefs (extractFileRefs fd) (stripFiles fd) := rfl
  have hextract : extractFileRefs (stripFiles fd) = extractFileRefs fd := by
    simp [extractFileRefs, stripFiles, stripFile, List.map_map]
  have hmain : (loadDraft initialFormData (handleSaveDraft fd)).formData = stripFiles fd := by
    rw [hunfold, ← hextract]
    exact overlay_extract_self (stripFiles fd)
  exact ⟨hmain, fun hno => hmain.trans (stripFiles_eq_self fd hno)⟩

/-- Witness for C1: the pristine initial state, which has no populated file
slot, survives a save/load cycle unchanged. -/
theorem save_load_roundtrip_witness :
    noFileSlots initialFormData = true ∧
    (loadDraft initialFormData (handleSaveDraft initialFormData)).formData = initialFormData :=
  ⟨by decide, (save_load_roundtrip initialFormData).2 (by decide)⟩

end MultiStepForm
